import Mathlib

/-!
Verification development for the deal-studio email lead parser
(src/api/parse.py).  The Python source is shallowly embedded: strings are
modelled as `String`/`List Char`, Python dicts with string values as
association lists, and the JSON documents produced by `jsonify` as an
explicit `Json` inductive.  Regular-expression fragments used by the source
are translated into executable character-list scanners; wherever the Python
regex engine could backtrack, the accompanying comment records why the
deterministic translation computes the same result on every input.
The BeautifulSoup-based HTML extractors are not translatable; the request
router `parse_email` is therefore parametrised by the extractor families it
dispatches to, while its own logic (body selection, classification,
markup detection, exception handling, mapping) is translated directly.
-/

namespace LeadParser

/-! ## Character and string helpers (Python semantics) -/

/-- Python `\s` / `str.strip()` whitespace over the ASCII range:
space, tab, newline, carriage return, vertical tab, form feed. -/
def pyIsSpace (c : Char) : Bool :=
  c = ' ' || c = '\t' || c = '\n' || c = '\r' || c = '\x0b' || c = '\x0c'

/-- ASCII lowercasing, as Python `str.lower()` acts on ASCII text. -/
def asciiLower (c : Char) : Char :=
  if 65 ≤ c.toNat && c.toNat ≤ 90 then Char.ofNat (c.toNat + 32) else c

/-- ASCII uppercasing, as Python `str.upper()` acts on ASCII text. -/
def asciiUpper (c : Char) : Char :=
  if 97 ≤ c.toNat && c.toNat ≤ 122 then Char.ofNat (c.toNat - 32) else c

/-- Python word character (`\w` / `\b` boundaries) over ASCII. -/
def isWordChar (c : Char) : Bool :=
  c.isAlpha || c.isDigit || c = '_'

/-- Python `str.strip()` on a character list. -/
def pyStrip (cs : List Char) : List Char :=
  ((cs.dropWhile pyIsSpace).reverse.dropWhile pyIsSpace).reverse

/-- Python `str.strip(chars)` on a character list. -/
def stripSet (bad : List Char) (cs : List Char) : List Char :=
  ((cs.dropWhile (bad.contains ·)).reverse.dropWhile (bad.contains ·)).reverse

/-- Lowercase a whole string (Python `str.lower()`). -/
def pyLower (s : String) : String :=
  ⟨s.data.map asciiLower⟩

/-- Python substring containment `sub in hay`. -/
def containsSub (hay sub : List Char) : Bool :=
  match hay with
  | [] => sub.isEmpty
  | _ :: rest => sub.isPrefixOf hay || containsSub rest sub

/-- `containsS s pat` is Python `pat in s` on strings. -/
def containsS (s pat : String) : Bool :=
  containsSub s.data pat.data

/-- Consume `pat` case-insensitively from the front of `cs`
(a case-folded literal match, re.IGNORECASE). Returns the remainder. -/
def dropCI (pat cs : List Char) : Option (List Char) :=
  match pat, cs with
  | [], _ => some cs
  | _ :: _, [] => none
  | p :: ps, c :: rest =>
      if asciiLower c = asciiLower p then dropCI ps rest else none

/-- Python truthiness choice `a or b` on strings. -/
def pyOr (a b : String) : String :=
  if a = "" then b else a

/-- Python `s.split(' ', 1)` when a space is present: the text before the
first space and the (unstripped) text after it. -/
def splitFirstSpace : List Char → Option (List Char × List Char)
  | [] => none
  | c :: rest =>
      if c = ' ' then some ([], rest)
      else (splitFirstSpace rest).map (fun p => (c :: p.1, p.2))

/-- The `first, last = name.split(' ', 1) if ' ' in name else (name, '')`
idiom shared by the extractors. -/
def splitNameSpace1 (name : String) : String × String :=
  match splitFirstSpace name.data with
  | some (a, b) => (⟨a⟩, ⟨b⟩)
  | none => (name, "")

/-- Remove every carriage return (Python `text.replace('\r', '')`). -/
def removeCR (s : String) : List Char :=
  s.data.filter (fun c => c ≠ '\r')

/-! ## Phone normalization — `normalize_phone_us_e164` (parse.py lines 23-40)

The extension-stripping regex `(?:ext|x|extension)[\s.:#-]*\d+\s*$` is
translated as a leftmost scan.  At a candidate position the tail
`[\s.:#-]*\d+\s*$` is deterministic despite the regex engine's greediness:
the character classes `[\s.:#-]`, `\d` and `\s` that follow each other are
pairwise disjoint on the characters that separate them, so maximal-munch is
the only possible parse. -/

/-- Characters of the class `[\s.:#-]` in the extension-suffix regex. -/
def extClassChar (c : Char) : Bool :=
  pyIsSpace c || c = '.' || c = ':' || c = '#' || c = '-'

/-- Python `\d` over the ASCII range. -/
def pyIsDigit (c : Char) : Bool :=
  48 ≤ c.toNat && c.toNat ≤ 57

/-- Does `[\s.:#-]*\d+\s*$` match all of `r`? -/
def extTailAfter (r : List Char) : Bool :=
  let r1 := r.dropWhile extClassChar
  match r1 with
  | c :: _ => pyIsDigit c && (r1.dropWhile pyIsDigit).all pyIsSpace
  | [] => false

/-- Does `(?:ext|x|extension)[\s.:#-]*\d+\s*$` match starting here? -/
def extMatchAt (cs : List Char) : Bool :=
  (match dropCI ['e', 'x', 't'] cs with
   | some r => extTailAfter r
   | none => false) ||
  (match dropCI ['x'] cs with
   | some r => extTailAfter r
   | none => false) ||
  (match dropCI ['e', 'x', 't', 'e', 'n', 's', 'i', 'o', 'n'] cs with
   | some r => extTailAfter r
   | none => false)

/-- `re.sub(r'(?:ext|x|extension)[\s.:#-]*\d+\s*$', '', phone, flags=re.I)`:
the match, when present, runs to the end of the string, so substitution
keeps the prefix before the leftmost match position. -/
def stripExtSuffix : List Char → List Char
  | [] => []
  | c :: rest => if extMatchAt (c :: rest) then [] else c :: stripExtSuffix rest

/-- Python `re.sub(r'\D', '', s)`: keep the digits. -/
def pyDigitsOf (cs : List Char) : List Char :=
  cs.filter pyIsDigit

/-- The international-dialing-prefix reductions of parse.py lines 28-31:
`001` + 10 digits and `01` + 10 digits are reduced to national form. -/
def reduceIntl (digits0 : List Char) : List Char :=
  if digits0.length = 13 ∧ digits0.take 3 = ['0', '0', '1'] then digits0.drop 3
  else if digits0.length = 12 ∧ digits0.take 2 = ['0', '1'] then digits0.drop 2
  else digits0

/-- The acceptance step of parse.py lines 32-40.  The final
`re.search(r'(\d{10})$', digits)` is applied to an all-digit string, so it
yields the last ten digits when at least ten exist and fails otherwise. -/
def phoneFromDigits (digits : List Char) : String :=
  if digits.length = 11 ∧ digits.take 1 = ['1'] then ⟨'+' :: '1' :: digits.drop 1⟩
  else if digits.length = 10 then ⟨'+' :: '1' :: digits⟩
  else if 10 ≤ digits.length then ⟨'+' :: '1' :: digits.drop (digits.length - 10)⟩
  else ""

/-- `normalize_phone_us_e164` from parse.py lines 23-40. -/
def normalize_phone_us_e164 (phone : String) : String :=
  if phone = "" then ""
  else phoneFromDigits (reduceIntl (pyDigitsOf (stripExtSuffix phone.data)))

/-! ## "Not disclosed" scrubbing and the canonical mapper -/

/-- The test applied by `remove_not_disclosed_fields` (parse.py lines 17-21):
`'not disclosed' in v.lower().strip()`. -/
def containsND (v : String) : Bool :=
  containsSub (pyStrip (pyLower v).data) "not disclosed".data

/-- Scrub one value as the dict comprehension in
`remove_not_disclosed_fields` does (all modelled values are strings, so the
`isinstance(v, str)` guard is always satisfied). -/
def scrubVal (v : String) : String :=
  if containsND v then "" else v

/-- A Python dict from semantic keys to string values.  The extractors build
their dicts with pairwise distinct literal keys, so an association list with
first-match lookup is an exact model. -/
def FlatExtraction : Type := List (String × String)

/-- First-match association lookup (`lookupS l k`). -/
def lookupS {α : Type} (l : List (String × α)) (k : String) : Option α :=
  match l with
  | [] => none
  | (k', v) :: rest => if k' = k then some v else lookupS rest k

/-- Python `flat.get(k, "")`. -/
def flatGet (flat : FlatExtraction) (k : String) : String :=
  (lookupS flat k).getD ""

/-- `remove_not_disclosed_fields` (parse.py lines 17-21). -/
def remove_not_disclosed_fields (flat : FlatExtraction) : FlatExtraction :=
  flat.map (fun kv => (kv.1, scrubVal kv.2))

/-- JSON documents as produced by `jsonify`. -/
inductive Json where
  | null : Json
  | str : String → Json
  | obj : List (String × Json) → Json

/-- Lookup of a key in a JSON object. -/
def jGet (j : Json) (k : String) : Option Json :=
  match j with
  | Json.obj kvs => lookupS kvs k
  | _ => none

/-- The string held at a top-level key, when it is a string. -/
def jGetStr (j : Json) (k : String) : Option String :=
  match jGet j k with
  | some (Json.str s) => some s
  | _ => none

/-- The string held at `group.key`, when present and a string. -/
def jGetStr2 (j : Json) (g k : String) : Option String :=
  match jGet j g with
  | some gj => jGetStr gj k
  | _ => none

/-- `to_nested` (parse.py lines 1286-1331), producing the JSON document that
`jsonify` serializes.  Dict insertion order is preserved; `error_debug` is
appended only when the debug string is truthy. -/
def to_nested (source : String) (flat0 : FlatExtraction) (error_debug : String) : Json :=
  let flat := remove_not_disclosed_fields flat0
  let listing_url :=
    if source = "fcbb" then flatGet flat "listing_url"
    else pyOr (pyOr (flatGet flat "listing_url") (flatGet flat "originating_website"))
           (flatGet flat "current_site_page_url")
  let base : List (String × Json) :=
    [("source", Json.str source),
     ("contact", Json.obj
       [("first_name", Json.str (flatGet flat "first_name")),
        ("last_name", Json.str (flatGet flat "last_name")),
        ("email", Json.str (flatGet flat "email")),
        ("phone", Json.str (flatGet flat "phone")),
        ("best_time_to_contact", Json.str (flatGet flat "best_time_to_contact"))]),
     ("address", Json.obj
       [("line1", Json.str (pyOr (flatGet flat "address") (flatGet flat "address1"))),
        ("city", Json.str (flatGet flat "city")),
        ("state", Json.str (flatGet flat "state")),
        ("zip", Json.str (pyOr (flatGet flat "contact_zip") (flatGet flat "zip"))),
        ("country", Json.str (flatGet flat "country"))]),
     ("listing", Json.obj
       [("headline", Json.str (flatGet flat "headline")),
        ("ref_id", Json.str (flatGet flat "ref_id")),
        ("listing_id", Json.str (flatGet flat "listing_id")),
        ("listing_url", Json.str listing_url),
        ("originating_website", Json.str (flatGet flat "originating_website")),
        ("current_site_page_url", Json.str (flatGet flat "current_site_page_url")),
        ("domain", Json.str (flatGet flat "domain"))]),
     ("details", Json.obj
       [("purchase_timeline", Json.str (flatGet flat "purchase_timeline")),
        ("investment_amount", Json.str (flatGet flat "investment_amount")),
        ("services_interested_in", Json.str (flatGet flat "services_interested_in")),
        ("heard_about", Json.str (flatGet flat "heard_about"))]),
     ("comments", Json.str (flatGet flat "comments"))]
  if error_debug = "" then Json.obj base
  else Json.obj (base ++ [("error_debug", Json.str error_debug)])

/-! ## The request router — `parse_email` (parse.py lines 1336-1409)

The router is translated directly: effective-body selection, the markup
test, the ordered vendor-signature chain, and the catch-all `except` that
maps an empty extraction under source `"unknown"`.  The per-vendor
extractors it dispatches to parse HTML with BeautifulSoup and are supplied
as opaque parameters; an extractor either returns a flat dict or raises,
modelled as `Except String FlatExtraction`. -/

/-- One request: the raw payload decoded as text, and the JSON `body`
field when the payload parses as a JSON object carrying a string there
(`request.get_json(..., silent=True)` followed by `data.get('body')`). -/
structure Request where
  raw : String
  jsonBody : Option String

/-- Effective body: the JSON `body` field when present and truthy,
otherwise the raw payload. -/
def effectiveBody (req : Request) : String :=
  match req.jsonBody with
  | some b => if b = "" then req.raw else b
  | none => req.raw

/-- `is_html = ("<html" in lowered) or ("<body" in lowered) or ("<div" in lowered)`
(parse.py lines 1350-1351). -/
def is_html (body : String) : Bool :=
  containsS (pyLower body) "<html" || containsS (pyLower body) "<body" ||
    containsS (pyLower body) "<div"

/-- The vendors recognised by the router's signature chain. -/
inductive Source where
  | fcbb
  | bizbuysell
  | businessesforsale
  | dealstream
  | murphybusiness
  | businessbroker
  | restaurantsforsale
  | franchiseresales
  | loopnet
  | unknown
  deriving DecidableEq

/-- The source tag string passed to `to_nested` in each router branch. -/
def sourceTag : Source → String
  | Source.fcbb => "fcbb"
  | Source.bizbuysell => "bizbuysell"
  | Source.businessesforsale => "businessesforsale"
  | Source.dealstream => "dealstream"
  | Source.murphybusiness => "murphybusiness"
  | Source.businessbroker => "businessbroker"
  | Source.restaurantsforsale => "restaurantsforsale"
  | Source.franchiseresales => "franchiseresales"
  | Source.loopnet => "loopnet"
  | Source.unknown => "unknown"

/-- The ordered vendor-signature chain of parse.py lines 1354-1406,
evaluated on the lowercased body. -/
def classify (lowered : String) : Source :=
  if containsS lowered "fcbb.com" || containsS lowered "oms.fcbb.com" ||
      containsS lowered "first choice business brokers" then Source.fcbb
  else if containsS lowered "bizbuysell" then Source.bizbuysell
  else if containsS lowered "businessesforsale.com" ||
      containsS lowered "businesses for sale" then Source.businessesforsale
  else if containsS lowered "dealstream" ||
      containsS lowered "leads.dealstream.com" then Source.dealstream
  else if containsS lowered "murphybusiness.com" ||
      containsS lowered "murphy business" then Source.murphybusiness
  else if containsS lowered "businessbroker.net" then Source.businessbroker
  else if containsS lowered "restaurants-for-sale.com" ||
      containsS lowered "restaurants for sale online" then Source.restaurantsforsale
  else if containsS lowered "franchiseresales.com" ||
      containsS lowered "franchise resales" then Source.franchiseresales
  else if containsS lowered "loopnet.com" || containsS lowered "loopnet" then Source.loopnet
  else Source.unknown

/-- The extractor families the router dispatches to.  `htmlE`/`textE` are
the per-vendor HTML and plain-text extractors; `getText` is the
`BeautifulSoup(body, "html.parser").get_text("\n")` projection used by the
BusinessesForSale and FranchiseResales branches. -/
structure Extractors where
  htmlE : Source → String → Except String FlatExtraction
  textE : Source → String → Except String FlatExtraction
  getText : String → String

/-- The extractor invocation each router branch performs for its source.
The `unknown` branch performs no extraction and maps an empty dict
(`to_nested("unknown", {})`), which is rendered here as succeeding with the
empty flat extraction. -/
def pickExtract (E : Extractors) (isHtml : Bool) (s : Source) (body : String) :
    Except String FlatExtraction :=
  match s with
  | Source.businessesforsale =>
      E.textE Source.businessesforsale (if isHtml then E.getText body else body)
  | Source.franchiseresales =>
      E.textE Source.franchiseresales (if isHtml then E.getText body else body)
  | Source.unknown => Except.ok []
  | s => if isHtml then E.htmlE s body else E.textE s body

/-- Mapping of one branch's extractor outcome: a returned flat dict is
mapped under the branch's source tag; an exception reaches the router's
outer `except`, which maps an empty extraction under `"unknown"` with a
`router_error` debug string (parse.py lines 1408-1409). -/
def mapResult (s : Source) (r : Except String FlatExtraction) : Json × Nat :=
  match r with
  | Except.ok flat => (to_nested (sourceTag s) flat "", 200)
  | Except.error e => (to_nested "unknown" [] ("router_error: " ++ e), 200)

/-- `parse_email` (parse.py lines 1336-1409): the `(json, status)` response.
An empty effective body returns the error object with HTTP 200; otherwise
the classified branch runs its extractor and maps the flat result; any
extractor exception is caught by the outer `except` and mapped as an empty
extraction under source `"unknown"` with a `router_error` debug string.
Every path produces status 200. -/
def parse_email (E : Extractors) (req : Request) : Json × Nat :=
  if effectiveBody req = "" then
    (Json.obj [("error", Json.str "No email content provided.")], 200)
  else
    mapResult (classify (pyLower (effectiveBody req)))
      (pickExtract E (is_html (effectiveBody req))
        (classify (pyLower (effectiveBody req))) (effectiveBody req))

/-! ## Schema completeness -/

/-- The key `k` of object `j` holds a string. -/
def isStrField (j : Json) (k : String) : Bool :=
  match jGet j k with
  | some (Json.str _) => true
  | _ => false

/-- Group `g` of `j` is an object holding a string at every key of `ks`. -/
def groupComplete (j : Json) (g : String) (ks : List String) : Bool :=
  match jGet j g with
  | some gj => ks.all (fun k => isStrField gj k)
  | _ => false

/-- The canonical-schema contract stated by the specification: every
canonical group and every leaf key is present, and every leaf is a string
(never null). -/
def schemaCompleteB (j : Json) : Bool :=
  isStrField j "source" &&
  groupComplete j "contact"
    ["first_name", "last_name", "email", "phone", "best_time_to_contact"] &&
  groupComplete j "address" ["line1", "city", "state", "zip", "country"] &&
  groupComplete j "listing"
    ["headline", "ref_id", "listing_id", "listing_url", "originating_website",
     "current_site_page_url", "domain"] &&
  groupComplete j "details"
    ["purchase_timeline", "investment_amount", "services_interested_in", "heard_about"] &&
  isStrField j "comments"

/-- Every document `to_nested` produces is schema complete, whatever the
flat extraction, source tag and debug string. -/
theorem schemaComplete_to_nested (s : String) (flat : FlatExtraction) (dbg : String) :
    schemaCompleteB (to_nested s flat dbg) = true := by
  unfold to_nested
  split <;> split <;> rfl

/-- Whatever the branch outcome, the mapped response is schema complete. -/
theorem schemaComplete_mapResult (s : Source) (r : Except String FlatExtraction) :
    schemaCompleteB (mapResult s r).1 = true := by
  cases r with
  | ok flat => exact schemaComplete_to_nested (sourceTag s) flat ""
  | error e => exact schemaComplete_to_nested "unknown" [] ("router_error: " ++ e)

/-- Extractors that always return an empty flat dict. -/
def trivialExtractors : Extractors :=
  ⟨fun _ _ => Except.ok [], fun _ _ => Except.ok [], id⟩

/-- Extractors that always raise, with message `boom`. -/
def failingExtractors : Extractors :=
  ⟨fun _ _ => Except.error "boom", fun _ _ => Except.error "boom", id⟩

/-- C1 (counterexample): the claim quantifies over every POST body,
including the empty one, but an empty effective body is answered with
`{"error": "No email content provided."}`, which contains none of the
canonical groups. -/
theorem c1_counterexample :
    effectiveBody ⟨"", none⟩ = "" ∧
    schemaCompleteB (parse_email trivialExtractors ⟨"", none⟩).1 = false := by
  exact ⟨rfl, rfl⟩

/-- C1 (amended): for every request whose effective body is non-empty,
whatever the extractors return or raise, the JSON response contains every
canonical group (source, contact, address, listing, details, comments) and
every leaf key of each group, and every leaf value is a string, never
null. -/
theorem c1_schema_complete (E : Extractors) (req : Request)
    (h : effectiveBody req ≠ "") :
    schemaCompleteB (parse_email E req).1 = true := by
  unfold parse_email
  rw [if_neg h]
  exact schemaComplete_mapResult _ _

/-- C1 witness: the schema-completeness theorem applied at a concrete
unrecognised body. -/
theorem c1_witness :
    effectiveBody ⟨"hello there", none⟩ ≠ "" ∧
    schemaCompleteB (parse_email trivialExtractors ⟨"hello there", none⟩).1 = true :=
  ⟨by decide, c1_schema_complete trivialExtractors ⟨"hello there", none⟩ (by decide)⟩

/-- C2 (counterexample): with a vendor body classified as `bizbuysell` and
an extractor that raises, the response's source is `"unknown"` — not the
classified source — and carries the single `router_error` message; no
retry on the plain-text projection happens. -/
theorem c2_counterexample :
    classify (pyLower (effectiveBody ⟨"bizbuysell lead", none⟩)) = Source.bizbuysell ∧
    jGetStr (parse_email failingExtractors ⟨"bizbuysell lead", none⟩).1 "source" =
      some "unknown" ∧
    jGetStr (parse_email failingExtractors ⟨"bizbuysell lead", none⟩).1 "source" ≠
      some "bizbuysell" ∧
    jGetStr (parse_email failingExtractors ⟨"bizbuysell lead", none⟩).1 "error_debug" =
      some "router_error: boom" := by
  refine ⟨rfl, rfl, ?_, rfl⟩
  decide

/-- C2 (amended): when the classified branch's extractor raises, no retry
is attempted; the response maps an entirely empty FlatExtraction under
source `"unknown"` (not the classified source), attaching the single
failure message as `error_debug` prefixed `router_error: `.  The theorem
is universal in the extractor families, so the conclusion is independent
of what any plain-text retry would have returned. -/
theorem c2_no_retry (E : Extractors) (req : Request) (s : Source) (e : String)
    (hc : classify (pyLower (effectiveBody req)) = s) (hs : s ≠ Source.unknown)
    (he : pickExtract E (is_html (effectiveBody req)) s (effectiveBody req) =
      Except.error e) :
    parse_email E req = (to_nested "unknown" [] ("router_error: " ++ e), 200) := by
  by_cases hb : effectiveBody req = ""
  · exfalso
    apply hs
    rw [← hc, hb]
    rfl
  · unfold parse_email
    rw [if_neg hb, hc, he]
    rfl

/-- C2 witness: the no-retry theorem applied at a concrete LoopNet body
with a raising extractor. -/
theorem c2_witness :
    classify (pyLower (effectiveBody ⟨"loopnet inquiry", none⟩)) = Source.loopnet ∧
    parse_email failingExtractors ⟨"loopnet inquiry", none⟩ =
      (to_nested "unknown" [] ("router_error: " ++ "boom"), 200) :=
  ⟨by decide,
   c2_no_retry failingExtractors ⟨"loopnet inquiry", none⟩ Source.loopnet "boom"
     (by decide) (by decide) rfl⟩

/-- C3 (confirmed): a missing or empty effective body — the JSON `body`
field when present and non-empty, else the raw payload — is answered with
HTTP 200 and exactly `{"error": "No email content provided."}`; no other
status is ever produced on this path. -/
theorem c3_empty_body_http200 (E : Extractors) (req : Request)
    (h : effectiveBody req = "") :
    parse_email E req =
      (Json.obj [("error", Json.str "No email content provided.")], 200) := by
  unfold parse_email
  rw [if_pos h]

/-- C3 witness: a request whose raw payload is empty and whose JSON `body`
field is present but empty. -/
theorem c3_witness :
    effectiveBody ⟨"", some ""⟩ = "" ∧
    parse_email trivialExtractors ⟨"", some ""⟩ =
      (Json.obj [("error", Json.str "No email content provided.")], 200) :=
  ⟨rfl, c3_empty_body_http200 trivialExtractors ⟨"", some ""⟩ rfl⟩

/-- C10 (confirmed): the router treats the body as markup exactly when its
lowercasing contains `<html`, `<body` or `<div`; when it does not (for
example a body containing only `<p>` or `<table>` tags), the response is
entirely independent of the HTML extractor family and the markup text
projection — only the plain-text extractors are invoked. -/
theorem c10_markup_detection :
    (∀ body : String, is_html body =
      (containsS (pyLower body) "<html" || containsS (pyLower body) "<body" ||
        containsS (pyLower body) "<div")) ∧
    ∀ (E E' : Extractors) (req : Request), E.textE = E'.textE →
      is_html (effectiveBody req) = false → parse_email E req = parse_email E' req := by
  constructor
  · intro body
    rfl
  · intro E E' req ht hih
    by_cases hb : effectiveBody req = ""
    · unfold parse_email
      rw [hb]
      rfl
    · unfold parse_email
      rw [if_neg hb, if_neg hb, hih]
      cases hc : classify (pyLower (effectiveBody req)) <;> simp [pickExtract, ht]

/-- HTML extractors and markup projection used only for the C10 witness;
they differ between the two families below. -/
def c10FamilyA : Extractors :=
  ⟨fun _ _ => Except.error "html-a", fun s b => Except.ok [(sourceTag s, b)], fun _ => "ga"⟩

/-- Second extractor family for the C10 witness: same plain-text
extractors, different HTML extractors and markup projection. -/
def c10FamilyB : Extractors :=
  ⟨fun _ _ => Except.ok [("k", "v")], fun s b => Except.ok [(sourceTag s, b)], id⟩

/-- C10 witness: a body containing only a `<p>` tag is not treated as
markup, and the response does not depend on the HTML extractor family. -/
theorem c10_witness :
    is_html (effectiveBody ⟨"<p>bizbuysell</p>", none⟩) = false ∧
    parse_email c10FamilyA ⟨"<p>bizbuysell</p>", none⟩ =
      parse_email c10FamilyB ⟨"<p>bizbuysell</p>", none⟩ :=
  ⟨by decide,
   c10_markup_detection.2 c10FamilyA c10FamilyB ⟨"<p>bizbuysell</p>", none⟩ rfl (by decide)⟩

/-! ## Phone normalization facts (C5, C6) -/

theorem dropCI_head (p : Char) (ps : List Char) (c : Char) (rest r : List Char)
    (h : dropCI (p :: ps) (c :: rest) = some r) : asciiLower c = asciiLower p := by
  unfold dropCI at h
  by_cases hc : asciiLower c = asciiLower p
  · exact hc
  · rw [if_neg hc] at h
    exact Option.noConfusion h

theorem extMatchAt_head (c : Char) (r : List Char) (h : extMatchAt (c :: r) = true) :
    asciiLower c = 'e' ∨ asciiLower c = 'x' := by
  unfold extMatchAt at h
  rw [Bool.or_eq_true, Bool.or_eq_true] at h
  rcases h with (h | h) | h
  · cases hd : dropCI ['e', 'x', 't'] (c :: r) with
    | none => rw [hd] at h; exact Bool.noConfusion h
    | some r2 => exact Or.inl ((dropCI_head 'e' _ c r r2 hd).trans (by decide))
  · cases hd : dropCI ['x'] (c :: r) with
    | none => rw [hd] at h; exact Bool.noConfusion h
    | some r2 => exact Or.inr ((dropCI_head 'x' _ c r r2 hd).trans (by decide))
  · cases hd : dropCI ['e', 'x', 't', 'e', 'n', 's', 'i', 'o', 'n'] (c :: r) with
    | none => rw [hd] at h; exact Bool.noConfusion h
    | some r2 => exact Or.inl ((dropCI_head 'e' _ c r r2 hd).trans (by decide))

theorem stripExt_of_no_ex (cs : List Char)
    (h : ∀ c ∈ cs, asciiLower c ≠ 'e' ∧ asciiLower c ≠ 'x') :
    stripExtSuffix cs = cs := by
  induction cs with
  | nil => rfl
  | cons c rest ih =>
    have hm : extMatchAt (c :: rest) = false := by
      cases hm : extMatchAt (c :: rest)
      · rfl
      · rcases extMatchAt_head c rest hm with he | hx
        · exact absurd he (h c (List.mem_cons_self c rest)).1
        · exact absurd hx (h c (List.mem_cons_self c rest)).2
    unfold stripExtSuffix
    rw [hm]
    simp only [Bool.false_eq_true, if_false]
    exact congrArg (c :: ·) (ih fun a ha => h a (List.mem_cons_of_mem c ha))

theorem pyIsDigit_no_ex (c : Char) (h : pyIsDigit c = true) :
    asciiLower c ≠ 'e' ∧ asciiLower c ≠ 'x' := by
  have hb : 48 ≤ c.toNat ∧ c.toNat ≤ 57 := by simpa [pyIsDigit] using h
  have hlow : asciiLower c = c := by
    unfold asciiLower
    split_ifs with hcond
    · exfalso
      rw [Bool.and_eq_true, decide_eq_true_eq, decide_eq_true_eq] at hcond
      omega
    · rfl
  constructor
  · rw [hlow]
    intro hc
    rw [hc] at hb
    exact absurd hb (by decide)
  · rw [hlow]
    intro hc
    rw [hc] at hb
    exact absurd hb (by decide)

theorem reduceIntl_mem {l : List Char} {c : Char} (h : c ∈ reduceIntl l) : c ∈ l := by
  unfold reduceIntl at h
  split_ifs at h <;> first | exact List.mem_of_mem_drop h | exact h

theorem reduceIntl_short {l : List Char} (h : l.length < 12) : reduceIntl l = l := by
  unfold reduceIntl
  split_ifs with h1 h2 <;> first | rfl | omega

theorem phoneFromDigits_shape (d : List Char) (hd : ∀ c ∈ d, pyIsDigit c = true) :
    phoneFromDigits d = "" ∨
      ∃ ds : List Char, phoneFromDigits d = ⟨'+' :: '1' :: ds⟩ ∧
        ds.length = 10 ∧ ∀ c ∈ ds, pyIsDigit c = true := by
  unfold phoneFromDigits
  split_ifs with h1 h2 h3
  · exact Or.inr ⟨d.drop 1, rfl, by rw [List.length_drop]; omega,
      fun c hc => hd c (List.mem_of_mem_drop hc)⟩
  · exact Or.inr ⟨d, rfl, h2, hd⟩
  · exact Or.inr ⟨d.drop (d.length - 10), rfl, by rw [List.length_drop]; omega,
      fun c hc => hd c (List.mem_of_mem_drop hc)⟩
  · exact Or.inl rfl

/-- Shape of every `normalize_phone_us_e164` result: empty, or `+1`
followed by exactly ten digit characters. -/
theorem normalize_phone_shape (p : String) :
    normalize_phone_us_e164 p = "" ∨
      ∃ ds : List Char, normalize_phone_us_e164 p = ⟨'+' :: '1' :: ds⟩ ∧
        ds.length = 10 ∧ ∀ c ∈ ds, pyIsDigit c = true := by
  by_cases hp : p = ""
  · left
    rw [hp]
    rfl
  · unfold normalize_phone_us_e164
    rw [if_neg hp]
    exact phoneFromDigits_shape _
      (fun c hc => List.of_mem_filter (p := pyIsDigit) (reduceIntl_mem hc))

/-- A normalized number is a fixed point of the normalizer. -/
theorem normalize_phone_fixed (ds : List Char) (hlen : ds.length = 10)
    (hd : ∀ c ∈ ds, pyIsDigit c = true) :
    normalize_phone_us_e164 ⟨'+' :: '1' :: ds⟩ = ⟨'+' :: '1' :: ds⟩ := by
  have hne : (⟨'+' :: '1' :: ds⟩ : String) ≠ "" := by
    intro h
    exact List.noConfusion (congrArg String.data h)
  unfold normalize_phone_us_e164
  rw [if_neg hne]
  have hstr : stripExtSuffix (String.data ⟨'+' :: '1' :: ds⟩) = '+' :: '1' :: ds := by
    apply stripExt_of_no_ex
    intro c hc
    rcases List.mem_cons.mp hc with rfl | hc
    · exact by decide
    rcases List.mem_cons.mp hc with rfl | hc
    · exact by decide
    exact pyIsDigit_no_ex c (hd c hc)
  rw [hstr]
  have hfil : pyDigitsOf ('+' :: '1' :: ds) = '1' :: ds := by
    unfold pyDigitsOf
    rw [List.filter_cons, List.filter_cons]
    simp only [show pyIsDigit '+' = false from rfl, show pyIsDigit '1' = true from rfl,
      Bool.false_eq_true, if_false, if_true]
    exact congrArg ('1' :: ·) (List.filter_eq_self.mpr hd)
  rw [hfil, reduceIntl_short (by simp [hlen])]
  unfold phoneFromDigits
  rw [if_pos ⟨by simp [hlen], rfl⟩]
  rfl

/-- Whenever the extracted digit string still holds at least ten digits,
the acceptance step keeps exactly the last ten of them.  The 11-with-
leading-`1` and 10-digit acceptances are the last-ten suffix trivially,
and the `001`/`01` international reductions drop exactly `length - 10`
leading digits, so every path coincides with
`re.search(r'(\d{10})$', digits)`. -/
theorem phone_last_ten (d0 : List Char) (h10 : 10 ≤ d0.length) :
    phoneFromDigits (reduceIntl d0) = ⟨'+' :: '1' :: d0.drop (d0.length - 10)⟩ := by
  unfold reduceIntl
  split_ifs with h1 h2
  · obtain ⟨h1a, _⟩ := h1
    unfold phoneFromDigits
    have hl : (d0.drop 3).length = 10 := by rw [List.length_drop]; omega
    rw [if_neg (fun hc => absurd (hl.symm.trans hc.1) (by decide)), if_pos hl,
      show d0.length - 10 = 3 by omega]
  · obtain ⟨h2a, _⟩ := h2
    unfold phoneFromDigits
    have hl : (d0.drop 2).length = 10 := by rw [List.length_drop]; omega
    rw [if_neg (fun hc => absurd (hl.symm.trans hc.1) (by decide)), if_pos hl,
      show d0.length - 10 = 2 by omega]
  · unfold phoneFromDigits
    by_cases hA : d0.length = 11 ∧ d0.take 1 = ['1']
    · obtain ⟨hA1, hA2⟩ := hA
      rw [if_pos ⟨hA1, hA2⟩, show d0.length - 10 = 1 by omega]
    · rw [if_neg hA]
      by_cases hB : d0.length = 10
      · rw [if_pos hB, show d0.length - 10 = 0 by omega, List.drop_zero]
      · rw [if_neg hB, if_pos h10]

/-- C5 (confirmed): `normalize_phone_us_e164` is total and its result is
either empty or `+1` followed by exactly ten digits; the extension suffix
is stripped before digit extraction, a ten-digit extraction is accepted as
is, an eleven-digit extraction with leading `1` drops that `1`, fewer than
ten digits yield the empty string (no ten-digit sequence exists), and in
every case with at least ten digits the digits used are exactly the last
ten found (`drop (length - 10)`) — the `001`/`01` reductions coincide with
that suffix, so this clause covers the claim's `otherwise the last 10
digits found are used` conclusion. -/
theorem c5_phone_result_shape (p : String) :
    (normalize_phone_us_e164 p = "" ∨
      ∃ ds : List Char, normalize_phone_us_e164 p = ⟨'+' :: '1' :: ds⟩ ∧
        ds.length = 10 ∧ ∀ c ∈ ds, pyIsDigit c = true) ∧
    ((pyDigitsOf (stripExtSuffix p.data)).length < 10 →
      normalize_phone_us_e164 p = "") ∧
    ((pyDigitsOf (stripExtSuffix p.data)).length = 10 →
      normalize_phone_us_e164 p = ⟨'+' :: '1' :: pyDigitsOf (stripExtSuffix p.data)⟩) ∧
    ((pyDigitsOf (stripExtSuffix p.data)).length = 11 ∧
        (pyDigitsOf (stripExtSuffix p.data)).take 1 = ['1'] →
      normalize_phone_us_e164 p =
        ⟨'+' :: '1' :: (pyDigitsOf (stripExtSuffix p.data)).drop 1⟩) ∧
    (10 ≤ (pyDigitsOf (stripExtSuffix p.data)).length →
      normalize_phone_us_e164 p =
        ⟨'+' :: '1' :: (pyDigitsOf (stripExtSuffix p.data)).drop
            ((pyDigitsOf (stripExtSuffix p.data)).length - 10)⟩) := by
  refine ⟨normalize_phone_shape p, ?_, ?_, ?_, ?_⟩
  · intro h
    by_cases hp : p = ""
    · rw [hp]
      rfl
    · unfold normalize_phone_us_e164
      rw [if_neg hp, reduceIntl_short (by omega)]
      unfold phoneFromDigits
      split_ifs with h1 h2 h3 <;> first | rfl | omega
  · intro h
    by_cases hp : p = ""
    · rw [hp] at h
      exact absurd h (by decide)
    · unfold normalize_phone_us_e164
      rw [if_neg hp, reduceIntl_short (by omega)]
      unfold phoneFromDigits
      split_ifs with h1 h2 h3 <;> first | rfl | omega
  · intro h
    by_cases hp : p = ""
    · rw [hp] at h
      exact absurd h.1 (by decide)
    · unfold normalize_phone_us_e164
      rw [if_neg hp, reduceIntl_short (by omega), phoneFromDigits]
      rw [if_pos h]
  · intro h
    by_cases hp : p = ""
    · rw [hp] at h
      exact absurd h (by decide)
    · unfold normalize_phone_us_e164
      rw [if_neg hp]
      exact phone_last_ten _ h

/-- C5 witness: a punctuated NANP number with a trailing extension
(ten-digit acceptance), and a fifteen-digit string whose last ten digits
are kept. -/
theorem c5_witness :
    (pyDigitsOf (stripExtSuffix "(555) 123-4567 ext. 89".data)).length = 10 ∧
    normalize_phone_us_e164 "(555) 123-4567 ext. 89" = "+15551234567" ∧
    10 ≤ (pyDigitsOf (stripExtSuffix "123456789012345".data)).length ∧
    normalize_phone_us_e164 "123456789012345" = "+16789012345" :=
  ⟨by decide,
   ((c5_phone_result_shape "(555) 123-4567 ext. 89").2.2.1 (by decide)).trans (by decide),
   by decide,
   ((c5_phone_result_shape "123456789012345").2.2.2.2 (by decide)).trans (by decide)⟩

/-- C6 (confirmed): phone normalization is idempotent; in particular an
already-normalized `+1`-prefixed ten-digit number is returned unchanged. -/
theorem c6_phone_idempotent (p : String) :
    normalize_phone_us_e164 (normalize_phone_us_e164 p) = normalize_phone_us_e164 p := by
  rcases normalize_phone_shape p with h | ⟨ds, h, hlen, hd⟩
  · rw [h]
    rfl
  · rw [h]
    exact normalize_phone_fixed ds hlen hd

/-! ## Canonical mapper facts (C7, C8) -/

theorem scrubVal_idem (v : String) : scrubVal (scrubVal v) = scrubVal v := by
  have h0 : containsND "" = false := by decide
  by_cases h : containsND v = true
  · simp [scrubVal, h, h0]
  · simp [scrubVal, h]

theorem removeND_idem (flat : FlatExtraction) :
    remove_not_disclosed_fields (remove_not_disclosed_fields flat) =
      remove_not_disclosed_fields flat := by
  unfold remove_not_disclosed_fields
  rw [List.map_map]
  exact List.map_congr_left fun kv _ => by
    simp only [Function.comp_apply, scrubVal_idem]

/-- C7 (confirmed): the `not disclosed` scrub is applied to the whole flat
extraction before mapping — scrubbing first does not change the canonical
record — and it maps exactly the values whose lowercased, stripped text
contains `not disclosed` to the empty string, leaving every other value
unchanged, for every source and every field. -/
theorem c7_not_disclosed_scrub (source : String) (flat : FlatExtraction) (dbg : String) :
    to_nested source (remove_not_disclosed_fields flat) dbg = to_nested source flat dbg ∧
    ∀ k : String, flatGet (remove_not_disclosed_fields flat) k =
      (if containsND (flatGet flat k) then "" else flatGet flat k) := by
  constructor
  · unfold to_nested
    rw [removeND_idem]
  · intro k
    induction flat with
    | nil => simp [flatGet, remove_not_disclosed_fields, lookupS]
    | cons kv rest ih =>
      obtain ⟨k1, v1⟩ := kv
      simp only [remove_not_disclosed_fields, List.map_cons] at ih ⊢
      by_cases hk : k1 = k
      · simp only [flatGet, lookupS, if_pos hk, Option.getD_some]
        rfl
      · simp only [flatGet, lookupS, if_neg hk]
        exact ih

/-- C8 (confirmed): in the canonical mapper, for every source other than
`fcbb` the canonical `listing.listing_url` is the (scrubbed) flat
`listing_url` if non-empty, else `originating_website`, else
`current_site_page_url`; for source `fcbb` it is taken only from the flat
`listing_url` and never backfilled from the other two keys. -/
theorem c8_listing_url_precedence (flat : FlatExtraction) (dbg : String) :
    (∀ source : String, source ≠ "fcbb" →
      jGetStr2 (to_nested source flat dbg) "listing" "listing_url" =
        some (pyOr (pyOr (flatGet (remove_not_disclosed_fields flat) "listing_url")
            (flatGet (remove_not_disclosed_fields flat) "originating_website"))
          (flatGet (remove_not_disclosed_fields flat) "current_site_page_url"))) ∧
    jGetStr2 (to_nested "fcbb" flat dbg) "listing" "listing_url" =
      some (flatGet (remove_not_disclosed_fields flat) "listing_url") := by
  constructor
  · intro source hs
    simp only [to_nested]
    rw [if_neg hs]
    split <;> rfl
  · simp only [to_nested]
    split <;> rfl

/-- C8 witness: a non-`fcbb` source backfills an empty `listing_url` from
`originating_website`; `fcbb` does not. -/
theorem c8_witness :
    ("bizbuysell" : String) ≠ "fcbb" ∧
    jGetStr2 (to_nested "bizbuysell" [("originating_website", "http://x.example")] "")
      "listing" "listing_url" = some "http://x.example" ∧
    jGetStr2 (to_nested "fcbb" [("originating_website", "http://x.example")] "")
      "listing" "listing_url" = some "" :=
  ⟨by decide,
   ((c8_listing_url_precedence [("originating_website", "http://x.example")] "").1
       "bizbuysell" (by decide)).trans (by decide),
   ((c8_listing_url_precedence [("originating_website", "http://x.example")] "").2).trans
     (by decide)⟩

/-! ## Murphy text extraction (parse.py lines 632-673)

`get_after` is `re.search(rf"{re.escape(label)}\s*:\s*([^\n\r]+)", text,
re.IGNORECASE)` with the capture stripped.  The translation scans for the
leftmost position where the whole pattern matches.  Both `\s*` munches are
maximal: neither `:` nor the first captured character is whitespace.  The
only behaviour the regex engine adds is a backtracked match when the colon
is followed exclusively by whitespace running to the end of the string — it
then captures trailing blanks, which `strip()` turns into the empty string;
in that situation the remaining text holds no further colon, so no later
position can match and the scan below also yields the empty string. -/

/-- Does `label\s*:\s*([^\n\r]+)` match at the head of `cs`?  Returns the
(pre-strip) capture. -/
def murphyMatchAt (label : List Char) (cs : List Char) : Option (List Char) :=
  match dropCI label cs with
  | none => none
  | some r =>
      match r.dropWhile pyIsSpace with
      | [] => none
      | c :: r2 =>
          if c = ':' then
            if ((r2.dropWhile pyIsSpace).takeWhile (fun a => a != '\n' && a != '\r')).isEmpty
            then none
            else some ((r2.dropWhile pyIsSpace).takeWhile (fun a => a != '\n' && a != '\r'))
          else none

/-- Leftmost-match search for the `get_after` pattern. -/
def murphyScan (label : List Char) : List Char → Option (List Char)
  | [] => none
  | c :: rest =>
      match murphyMatchAt label (c :: rest) with
      | some cap => some cap
      | none => murphyScan label rest

/-- `get_after` of `extract_murphy_text` (parse.py lines 637-641). -/
def murphy_get_after (label : String) (text : List Char) : String :=
  match murphyScan label.data text with
  | some cap => ⟨pyStrip cap⟩
  | none => ""

/-- `extract_murphy_text` (parse.py lines 632-673). -/
def extract_murphy_text (text_body : String) : FlatExtraction :=
  let text := removeCR text_body
  let fl := splitNameSpace1 (murphy_get_after "Name" text)
  let email := murphy_get_after "Email" text
  let contact_zip := murphy_get_after "ZIP/Postal Code" text
  let phone := normalize_phone_us_e164 (murphy_get_after "Phone" text)
  let services := murphy_get_after "Services Interested In" text
  let heard0 := murphy_get_after "How did you hear about us?" text
  let heard := if heard0 = "" then murphy_get_after "How did you hear about us" text
    else heard0
  let ref_id := pyOr (murphy_get_after "Listing Number" text)
    (murphy_get_after "Listing ID" text)
  [("first_name", fl.1),
   ("last_name", fl.2),
   ("email", email),
   ("phone", phone),
   ("ref_id", ref_id),
   ("listing_id", ""),
   ("headline", ""),
   ("contact_zip", contact_zip),
   ("investment_amount", ""),
   ("purchase_timeline", ""),
   ("comments", ""),
   ("listing_url", ""),
   ("services_interested_in", services),
   ("heard_about", heard)]

/-! ## BizBuySell text extraction — bounded label capture
(parse.py lines 392-424)

`label_to_re` joins each label's words with `\s*` and appends `\s*:`;
the union of these patterns is scanned with `finditer` and each field value
runs from the end of its label match to the start of the next match.  The
whitespace munches are maximal-and-exact because every following token (a
word's first letter, or `:`) is not whitespace. -/

/-- The BizBuySell labels in alternation order, with their word lists. -/
def bbLabelDefs : List (String × List String) :=
  [("Contact Name", ["Contact", "Name"]),
   ("Contact Email", ["Contact", "Email"]),
   ("Contact Phone", ["Contact", "Phone"]),
   ("Contact Zip", ["Contact", "Zip"]),
   ("Able to Invest", ["Able", "to", "Invest"]),
   ("Purchase Within", ["Purchase", "Within"]),
   ("Comments", ["Comments"]),
   ("Listing ID", ["Listing", "ID"]),
   ("Ref ID", ["Ref", "ID"])]

/-- After the first word: `\s*word` for each remaining word, then `\s*:`. -/
def matchRestWords : List (List Char) → List Char → Option (List Char)
  | [], cs =>
      match cs.dropWhile pyIsSpace with
      | ':' :: r => some r
      | _ => none
  | w :: ws, cs =>
      match dropCI w (cs.dropWhile pyIsSpace) with
      | some r => matchRestWords ws r
      | none => none

/-- A whole label pattern (without the leading `\b`): first word, then the
rest, then the colon. -/
def matchLabelWords (ws : List (List Char)) (cs : List Char) : Option (List Char) :=
  match ws with
  | [] => none
  | w :: ws2 =>
      match dropCI w cs with
      | some r => matchRestWords ws2 r
      | none => none

/-- Try the label alternation in order at this suffix; on success the
canonical label and the number of characters consumed. -/
def bbTryLabels (defs : List (String × List String)) (suf : List Char) :
    Option (String × Nat) :=
  match defs with
  | [] => none
  | (canon, words) :: rest =>
      match matchLabelWords (words.map String.data) suf with
      | some r => some (canon, suf.length - r.length)
      | none => bbTryLabels rest suf

/-- The word boundary `\b` before a label: position 0 or after a non-word
character (labels start with a letter). -/
def boundaryBefore (txt : List Char) (pos : Nat) : Bool :=
  match pos with
  | 0 => true
  | p + 1 => !isWordChar (txt.getD p ' ')

/-- A label-union match starting at `pos`. -/
def bbMatchAt (txt : List Char) (pos : Nat) : Option (String × Nat) :=
  if boundaryBefore txt pos then bbTryLabels bbLabelDefs (txt.drop pos) else none

/-- All (label, start, end) matches, leftmost first and non-overlapping:
after a match the scan resumes at its end, as `finditer` does. -/
def bbCollect (txt : List Char) : List (String × Nat × Nat) :=
  ((List.range txt.length).foldl
    (fun (st : List (String × Nat × Nat) × Nat) pos =>
      if pos < st.2 then st
      else
        match bbMatchAt txt pos with
        | some (canon, len) => (st.1 ++ [(canon, pos, pos + len)], pos + len)
        | none => st)
    ([], 0)).1

/-- Does `Inquirer.?s Information` (re.IGNORECASE) match at `pos`, and with
how many characters?  The greedy `.?` is tried with one character first;
`.` matches anything but a newline. -/
def inquirerMatchLen (txt : List Char) (pos : Nat) : Option Nat :=
  let suf := txt.drop pos
  match dropCI "inquirer".data suf with
  | none => none
  | some r =>
      let withChar : Option Nat :=
        match r with
        | c :: r2 =>
            if c = '\n' then none
            else
              match dropCI "s information".data r2 with
              | some rest => some (suf.length - rest.length)
              | none => none
        | [] => none
      match withChar with
      | some n => some n
      | none =>
          match dropCI "s information".data r with
          | some rest => some (suf.length - rest.length)
          | none => none

/-- `re.sub(r'Inquirer.?s Information', '', val, flags=re.IGNORECASE)`:
drop every non-overlapping match, leftmost first. -/
def inquirerRemove (txt : List Char) : List Char :=
  ((List.range txt.length).foldl
    (fun (st : List Char × Nat) pos =>
      if pos < st.2 then st
      else
        match inquirerMatchLen txt pos with
        | some len => (st.1, pos + len)
        | none => (st.1 ++ [txt.getD pos ' '], pos + 1))
    ([], 0)).1

/-- Python `txt[a:b]`. -/
def sliceL (txt : List Char) (a b : Nat) : List Char :=
  (txt.take b).drop a

/-- Python dict assignment `d[k] = v`, preserving insertion order and
overwriting an existing key. -/
def dictSet (l : List (String × String)) (k v : String) : List (String × String) :=
  match l with
  | [] => [(k, v)]
  | (k1, v1) :: rest => if k1 = k then (k1, v) :: rest else (k1, v1) :: dictSet rest k v

/-- The per-match values of the `fields` loop (parse.py lines 417-424):
each value runs from the end of its label match to the start of the next
match (or end of text), stripped; a `Ref ID` value additionally drops a
stray `Inquirer.?s Information` header. -/
def bbVals (txt : List Char) : List (String × Nat × Nat) → List (String × String)
  | [] => []
  | (l, _, e) :: rest =>
      let nxt := match rest with
        | (_, s2, _) :: _ => s2
        | [] => txt.length
      let raw := pyStrip (sliceL txt e nxt)
      let v : List Char := if l = "Ref ID" then pyStrip (inquirerRemove raw) else raw
      (l, ⟨v⟩) :: bbVals txt rest

/-- The `fields` dict of `extract_bizbuysell_text` (parse.py lines
392-424), built with dict assignment so a repeated label keeps its last
value. -/
def bizbuysellFields (txt : List Char) : List (String × String) :=
  (bbVals txt (bbCollect txt)).foldl (fun d kv => dictSet d kv.1 kv.2) []

/-! ## C4: label-boundary behaviour -/

theorem all_takeWhile (p : Char → Bool) (l : List Char) :
    (l.takeWhile p).all p = true := by
  rw [List.all_eq_true]
  intro c hc
  exact List.mem_takeWhile_imp hc

theorem all_pyStrip (p : Char → Bool) (l : List Char) (h : l.all p = true) :
    (pyStrip l).all p = true := by
  rw [List.all_eq_true] at h ⊢
  intro c hc
  apply h
  unfold pyStrip at hc
  rw [List.mem_reverse] at hc
  have hc2 := (List.dropWhile_sublist (l := (l.dropWhile pyIsSpace).reverse)
    (p := pyIsSpace)).mem hc
  rw [List.mem_reverse] at hc2
  exact (List.dropWhile_sublist (l := l) (p := pyIsSpace)).mem hc2

theorem murphyMatchAt_all (label cs cap : List Char)
    (h : murphyMatchAt label cs = some cap) :
    cap.all (fun a => a != '\n' && a != '\r') = true := by
  unfold murphyMatchAt at h
  split at h
  · exact Option.noConfusion h
  · split at h
    · exact Option.noConfusion h
    · split at h
      · split at h
        · exact Option.noConfusion h
        · injection h with h
          rw [← h]
          exact all_takeWhile _ _
      · exact Option.noConfusion h

theorem murphyScan_all (label cs cap : List Char)
    (h : murphyScan label cs = some cap) :
    cap.all (fun a => a != '\n' && a != '\r') = true := by
  induction cs with
  | nil => exact Option.noConfusion h
  | cons c rest ih =>
      unfold murphyScan at h
      cases hm : murphyMatchAt label (c :: rest) with
      | some cap2 =>
          rw [hm] at h
          injection h with h
          rw [← h]
          exact murphyMatchAt_all label (c :: rest) cap2 hm
      | none =>
          rw [hm] at h
          exact ih h

set_option maxRecDepth 8000 in
/-- C4 (counterexample): the Murphy text extractor captures only the
remainder of the label's line, not up to the next recognized label:
extracting `Services Interested In` from
`"Services Interested In: foo Phone: 555-123-4567"` keeps the following
`Phone:` label and its value instead of stopping at it. -/
theorem c4_counterexample :
    flatGet (extract_murphy_text "Services Interested In: foo Phone: 555-123-4567")
        "services_interested_in" = "foo Phone: 555-123-4567" ∧
    flatGet (extract_murphy_text "Services Interested In: foo Phone: 555-123-4567")
        "services_interested_in" ≠ "foo" := by
  exact ⟨by decide, by decide⟩

set_option maxRecDepth 8000 in
/-- C4 (amended): the next-label-as-terminator rule holds for the
BizBuySell text extractor — its captured values are bounded by the next
recognized label occurrence anywhere in the text, so extracting
`Contact Name` from `"Contact Name: Jane Doe Contact Email: jane@x.com"`
yields `"Jane Doe"` — but the Murphy-style line-scoped extractors capture
only within the label's line: their values never cross a newline. -/
theorem c4_label_boundaries :
    (lookupS (bizbuysellFields "Contact Name: Jane Doe Contact Email: jane@x.com".data)
        "Contact Name" = some "Jane Doe" ∧
     lookupS (bizbuysellFields "Contact Name: Jane Doe Contact Email: jane@x.com".data)
        "Contact Email" = some "jane@x.com") ∧
    ∀ (label : String) (text : List Char),
      (murphy_get_after label text).data.all (fun a => a != '\n' && a != '\r') = true := by
  refine ⟨⟨by decide, by decide⟩, ?_⟩
  intro label text
  unfold murphy_get_after
  cases hs : murphyScan label.data text with
  | some cap => exact all_pyStrip _ cap (murphyScan_all label.data text cap hs)
  | none => rfl

/-! ## Address decomposition — `parse_address_loose` (parse.py lines 77-189)

The three postal regexes are translated as leftmost scans with explicit
candidate orders.  Each quantifier's greedy order is preserved: the UK
group-1 combinations (`[A-Z]{1,2}\d{1,2}[A-Z]?`) are tried longest-first,
the US `(?:-\d{4})?` long form first, and the Canadian `\s?` consumes a
whitespace character when one is present (if the rest then fails, the
no-consume alternative would place `\d` on that whitespace character and
fail too, so committing is exact). -/

/-- The result record `{address1, city, state, zip, country}`. -/
structure AddrResult where
  address1 : String
  city : String
  state : String
  zip : String
  country : String
  deriving DecidableEq

/-- Worker for `collapseWS`; the flag records an open whitespace run. -/
def collapseWSGo : List Char → Bool → List Char
  | [], _ => []
  | c :: rest, inRun =>
      if pyIsSpace c then
        if inRun then collapseWSGo rest true else ' ' :: collapseWSGo rest true
      else c :: collapseWSGo rest false

/-- `re.sub(r'\s+', ' ', s)`: collapse every whitespace run to one space. -/
def collapseWS (cs : List Char) : List Char :=
  collapseWSGo cs false

/-- The normalization prefix: `re.sub(r'\s+', ' ', addr.strip())` followed
by `.strip(' .')` (parse.py lines 86-87). -/
def addrNorm (addr : String) : List Char :=
  stripSet [' ', '.'] (collapseWS (pyStrip addr.data))

/-- The `\b` after a match: end of text or a non-word character. -/
def boundaryAfter : List Char → Bool
  | [] => true
  | c :: _ => !isWordChar c

/-- The `\b` before a match beginning with a word character: start of text
or a preceding non-word character. -/
def boundaryPrev : Option Char → Bool
  | none => true
  | some c => !isWordChar c

/-- The ordered country tokens of `country_map` (parse.py lines 91-103)
with their canonical names; each alternation is flattened in order — as
end-anchored suffixes its alternatives are mutually exclusive, so this
preserves the regex's choice. -/
def countryToks : List (String × String) :=
  [("united kingdom", "United Kingdom"), ("uk", "United Kingdom"),
   ("united states", "United States"), ("usa", "United States"),
   ("us", "United States"),
   ("canada", "Canada"),
   ("england", "United Kingdom"), ("scotland", "United Kingdom"),
   ("wales", "United Kingdom"), ("northern ireland", "United Kingdom")]

/-- Does `\btok\b\.?$` match the end of `tail`?  `tail` was already
stripped of trailing spaces and periods, so the optional period matches
empty and the token must be an exact suffix preceded by a word boundary
(the boundary after the token holds trivially at end of text). -/
def endsWithTok (tail tok : List Char) : Bool :=
  decide (tok.length ≤ tail.length) &&
  decide (tail.drop (tail.length - tok.length) = tok) &&
  (decide (tail.length = tok.length) ||
    !isWordChar (tail.getD (tail.length - tok.length - 1) ' '))

/-- The country-extraction loop (parse.py lines 97-103): on the first
matching token, remove it from the end of `s`, strip ` ,.`, and record the
canonical name; otherwise return `s` unchanged with an empty name. -/
def countrySplitGo : List (String × String) → List Char → List Char × String
  | [], s => (s, "")
  | (tok, name) :: rest, s =>
      if endsWithTok (s.map asciiLower) tok.data then
        (stripSet [' ', ',', '.'] (s.take (s.length - tok.length)), name)
      else countrySplitGo rest s

/-- Country detection over the full ordered token list. -/
def countrySplit (s : List Char) : List Char × String :=
  countrySplitGo countryToks s

/-- `\d{5}(?:-\d{4})?\b` at the head of `suf` (the leading boundary is the
caller's): the matched text. -/
def usZipHere (suf : List Char) : Option (List Char) :=
  let d5 := suf.take 5
  if d5.length = 5 ∧ d5.all pyIsDigit then
    let rest5 := suf.drop 5
    let long : Option (List Char) :=
      match rest5 with
      | '-' :: r6 =>
          let d4 := r6.take 4
          if d4.length = 4 ∧ d4.all pyIsDigit ∧ boundaryAfter (r6.drop 4) then
            some (d5 ++ '-' :: d4)
          else none
      | _ => none
    match long with
    | some m => some m
    | none => if boundaryAfter rest5 then some d5 else none
  else none

/-- Leftmost scan for `us_zip_re`: `(start, matched text)`. -/
def usZipScanGo : Option Char → List Char → Nat → Option (Nat × List Char)
  | _, [], _ => none
  | prev, c :: rest, pos =>
      if boundaryPrev prev then
        match usZipHere (c :: rest) with
        | some m => some (pos, m)
        | none => usZipScanGo (some c) rest (pos + 1)
      else usZipScanGo (some c) rest (pos + 1)

/-- `us_zip_re.search`. -/
def usZipScan (s : List Char) : Option (Nat × List Char) :=
  usZipScanGo none s 0

/-- The UK pattern tail `\s*(\d[A-Z]{2})\b`: remaining suffix and group 2,
uppercased. -/
def ukTail (r : List Char) : Option (List Char × List Char) :=
  match r.dropWhile pyIsSpace with
  | d :: a :: b :: rest =>
      if pyIsDigit d ∧ a.isAlpha ∧ b.isAlpha ∧ boundaryAfter rest then
        some (rest, [d, asciiUpper a, asciiUpper b])
      else none
  | _ => none

/-- One candidate parse of UK group 1 (`l` letters, `d` digits, optionally
one letter) followed by the tail; on success the uppercased groups. -/
def ukCombo (suf : List Char) (l d : Nat) (useOpt : Bool) :
    Option (List Char × List Char) :=
  let ls := suf.take l
  if ls.length = l ∧ ls.all Char.isAlpha then
    let r1 := suf.drop l
    let ds := r1.take d
    if ds.length = d ∧ ds.all pyIsDigit then
      let r2 := r1.drop d
      if useOpt then
        match r2 with
        | c :: r3 =>
            if c.isAlpha then
              match ukTail r3 with
              | some (_, g2) => some ((ls.map asciiUpper) ++ ds ++ [asciiUpper c], g2)
              | none => none
            else none
        | [] => none
      else
        match ukTail r2 with
        | some (_, g2) => some ((ls.map asciiUpper) ++ ds, g2)
        | none => none
    else none
  else none

/-- The UK pattern at the head of `suf`, candidates in the regex's
backtracking order. -/
def ukHere (suf : List Char) : Option (List Char × List Char) :=
  ukCombo suf 2 2 true <|> ukCombo suf 2 2 false <|>
  ukCombo suf 2 1 true <|> ukCombo suf 2 1 false <|>
  ukCombo suf 1 2 true <|> ukCombo suf 1 2 false <|>
  ukCombo suf 1 1 true <|> ukCombo suf 1 1 false

/-- Leftmost scan for `uk_postal_re`: `(start, group 1, group 2)`. -/
def ukScanGo : Option Char → List Char → Nat → Option (Nat × List Char × List Char)
  | _, [], _ => none
  | prev, c :: rest, pos =>
      if boundaryPrev prev then
        match ukHere (c :: rest) with
        | some (g1, g2) => some (pos, g1, g2)
        | none => ukScanGo (some c) rest (pos + 1)
      else ukScanGo (some c) rest (pos + 1)

/-- `uk_postal_re.search`. -/
def ukScan (s : List Char) : Option (Nat × List Char × List Char) :=
  ukScanGo none s 0

/-- First character class of the Canadian pattern, `[ABCEGHJ-NPRSTVXY]`. -/
def caC1 (c : Char) : Bool :=
  "ABCEGHJKLMNPRSTVXY".data.contains (asciiUpper c)

/-- Second/third character class, `[ABCEGHJ-NPRSTV-Z]`. -/
def caC2 (c : Char) : Bool :=
  "ABCEGHJKLMNPRSTVWXYZ".data.contains (asciiUpper c)

/-- The Canadian pattern at the head of `suf`: the matched text. -/
def caHere (suf : List Char) : Option (List Char) :=
  match suf with
  | a :: d1 :: b :: rest =>
      if caC1 a ∧ pyIsDigit d1 ∧ caC2 b then
        let sp : Nat := match rest with
          | c :: _ => if pyIsSpace c then 1 else 0
          | [] => 0
        match rest.drop sp with
        | d2 :: e :: d3 :: rest3 =>
            if pyIsDigit d2 ∧ caC2 e ∧ pyIsDigit d3 ∧ boundaryAfter rest3 then
              some ([a, d1, b] ++ rest.take sp ++ [d2, e, d3])
            else none
        | _ => none
      else none
  | _ => none

/-- Leftmost scan for `ca_postal_re`: `(start, matched text)`. -/
def caScanGo : Option Char → List Char → Nat → Option (Nat × List Char)
  | _, [], _ => none
  | prev, c :: rest, pos =>
      if boundaryPrev prev then
        match caHere (c :: rest) with
        | some m => some (pos, m)
        | none => caScanGo (some c) rest (pos + 1)
      else caScanGo (some c) rest (pos + 1)

/-- `ca_postal_re.search`. -/
def caScan (s : List Char) : Option (Nat × List Char) :=
  caScanGo none s 0

/-- The state codes of `us_state_re` (parse.py line 107), in order. -/
def stateCodes : List String :=
  ["AL", "AK", "AZ", "AR", "CA", "CO", "CT", "DE", "DC", "FL", "GA", "HI", "ID",
   "IL", "IN", "IA", "KS", "KY", "LA", "ME", "MD", "MA", "MI", "MN", "MS", "MO",
   "MT", "NC", "ND", "NE", "NH", "NJ", "NM", "NV", "NY", "OH", "OK", "OR", "PA",
   "RI", "SC", "SD", "TN", "TX", "UT", "VA", "VT", "WA", "WI", "WV", "WY"]

/-- `us_state_re.search(last)`: leftmost two-letter code with word
boundaries on both sides, case-insensitively; `(start, CODE)` uppercased.
At a given position at most one alternative matches, so the alternation
order is immaterial. -/
def usStateScanGo : Option Char → List Char → Nat → Option (Nat × String)
  | _, [], _ => none
  | prev, c :: rest, pos =>
      if boundaryPrev prev then
        match rest with
        | b :: rest2 =>
            if c.isAlpha ∧ b.isAlpha ∧
                stateCodes.contains ⟨[asciiUpper c, asciiUpper b]⟩ ∧
                boundaryAfter rest2 then
              some (pos, ⟨[asciiUpper c, asciiUpper b]⟩)
            else usStateScanGo (some c) rest (pos + 1)
        | [] => none
      else usStateScanGo (some c) rest (pos + 1)

/-- `us_state_re.search`. -/
def usStateScan (s : List Char) : Option (Nat × String) :=
  usStateScanGo none s 0

/-- `re.split(r'[;,]', s)`: split at every `;` or `,`, keeping empty
pieces. -/
def splitSemiComma (cs : List Char) : List (List Char) :=
  cs.foldr
    (fun c acc =>
      if c = ';' ∨ c = ',' then [] :: acc
      else
        match acc with
        | h :: t => (c :: h) :: t
        | [] => [[c]])
    [[]]

/-- `[p.strip() for p in re.split(r'[;,]', before) if p.strip()]`. -/
def partsWS (before : List Char) : List (List Char) :=
  ((splitSemiComma before).map pyStrip).filter (fun p => !p.isEmpty)

/-- Python `", ".join(ps)`. -/
def joinComma (ps : List (List Char)) : String :=
  ⟨List.intercalate [',', ' '] ps⟩

/-- `parse_address_loose` (parse.py lines 77-189). -/
def parse_address_loose (addr : String) (default_country : String) : AddrResult :=
  if addr = "" then ⟨"", "", "", "", default_country⟩
  else
    let sc := countrySplit (addrNorm addr)
    let s := sc.1
    let country := if sc.2 = "" then default_country else sc.2
    match ukScan s with
    | some (start, g1, g2) =>
        let bparts := partsWS (stripSet [' ', ',', '.'] (s.take start))
        let city : String := ⟨(bparts.getLast?).getD []⟩
        let address1 := if bparts.length > 1 then joinComma bparts.dropLast else ""
        ⟨address1, city, "", ⟨g1 ++ ' ' :: g2⟩, pyOr country "United Kingdom"⟩
    | none =>
    match usZipScan s with
    | some (start, m) =>
        let bparts := partsWS (stripSet [' ', ',', '.'] (s.take start))
        match bparts.getLast? with
        | some last =>
            let address1 := if bparts.length > 1 then joinComma bparts.dropLast else ""
            match usStateScan last with
            | some (st, code) =>
                let city := pyOr ⟨stripSet [' ', ','] (last.take st)⟩
                  (if bparts.length ≥ 2 then ⟨bparts.getD (bparts.length - 2) []⟩ else "")
                ⟨address1, city, code, ⟨m⟩, pyOr country "United States"⟩
            | none => ⟨address1, ⟨last⟩, "", ⟨m⟩, pyOr country "United States"⟩
        | none => ⟨"", "", "", ⟨m⟩, pyOr country "United States"⟩
    | none =>
    match caScan s with
    | some (start, m) =>
        let bparts := partsWS (stripSet [' ', ',', '.'] (s.take start))
        let city : String := ⟨(bparts.getLast?).getD []⟩
        let address1 := if bparts.length > 1 then joinComma bparts.dropLast else ""
        ⟨address1, city, "", ⟨m.map asciiUpper⟩, pyOr country "Canada"⟩
    | none => ⟨⟨s⟩, "", "", "", country⟩

set_option maxRecDepth 8000 in
/-- C9 (counterexample): when no postal pattern matches, the returned
address1 is the whitespace-collapsed, edge-trimmed, country-stripped
normalization of the input — not the entire input: two consecutive spaces
are collapsed into one. -/
theorem c9_counterexample :
    parse_address_loose "123  Main" "" = ⟨"123 Main", "", "", "", ""⟩ ∧
    ("123 Main" : String) ≠ "123  Main" := by
  exact ⟨by decide, by decide⟩

/-- C9 (amended): for every non-empty input on which none of the UK, US or
Canadian postal patterns match (tried in that order on the normalized,
country-stripped line), `parse_address_loose` returns the whole normalized
line as address1 with empty city, state and zip, and the detected country
name or the caller's default; the function is total, so it never raises. -/
theorem c9_fallback (addr dc : String) (h0 : addr ≠ "")
    (h1 : ukScan (countrySplit (addrNorm addr)).1 = none)
    (h2 : usZipScan (countrySplit (addrNorm addr)).1 = none)
    (h3 : caScan (countrySplit (addrNorm addr)).1 = none) :
    parse_address_loose addr dc =
      ⟨⟨(countrySplit (addrNorm addr)).1⟩, "", "", "",
        if (countrySplit (addrNorm addr)).2 = "" then dc
        else (countrySplit (addrNorm addr)).2⟩ := by
  simp only [parse_address_loose, h0, h1, h2, h3, if_false]

set_option maxRecDepth 8000 in
/-- C9 witness: the fallback theorem applied at a concrete line without
postal tokens, with a default country supplied. -/
theorem c9_witness :
    ukScan (countrySplit (addrNorm "Attention Bob")).1 = none ∧
    usZipScan (countrySplit (addrNorm "Attention Bob")).1 = none ∧
    caScan (countrySplit (addrNorm "Attention Bob")).1 = none ∧
    parse_address_loose "Attention Bob" "Freedonia" =
      ⟨"Attention Bob", "", "", "", "Freedonia"⟩ :=
  ⟨by decide, by decide, by decide,
   (c9_fallback "Attention Bob" "Freedonia" (by decide) (by decide) (by decide)
       (by decide)).trans (by decide)⟩

example : normalize_phone_us_e164 "(555) 123-4567" = "+15551234567" := by decide
example : normalize_phone_us_e164 "1-800-555-0100" = "+18005550100" := by decide
example : normalize_phone_us_e164 "555-0100" = "" := by decide
example : normalize_phone_us_e164 "123456789012345" = "+16789012345" := by decide
example : normalize_phone_us_e164 "555.123.4567 x42" = "+15551234567" := by decide

set_option maxRecDepth 20000 in
example : parse_address_loose "123 Main St, Springfield, IL 62704" "" =
  ⟨"123 Main St, Springfield", "Springfield", "IL", "62704", "United States"⟩ := by decide
set_option maxRecDepth 20000 in
example : parse_address_loose "10 Downing Street, London SW1A 2AA, United Kingdom" "" =
  ⟨"10 Downing Street", "London", "", "SW1A 2AA", "United Kingdom"⟩ := by decide
set_option maxRecDepth 20000 in
example : parse_address_loose "45 Maple Ave; Toronto M5V 2T6 Canada" "" =
  ⟨"45 Maple Ave", "Toronto", "", "M5V 2T6", "Canada"⟩ := by decide
set_option maxRecDepth 20000 in
example : parse_address_loose " Somewhere,  USA " "" =
  ⟨"Somewhere", "", "", "", "United States"⟩ := by decide
set_option maxRecDepth 20000 in
example : parse_address_loose "123 Main St Anytown CA 90210-1234" "" =
  ⟨"", "123 Main St Anytown", "CA", "90210-1234", "United States"⟩ := by decide
set_option maxRecDepth 20000 in
example : parse_address_loose "Flat 2, 9 Acacia Rd, Leeds LS1 4AB" "" =
  ⟨"Flat 2, 9 Acacia Rd", "Leeds", "", "LS1 4AB", "United Kingdom"⟩ := by decide
set_option maxRecDepth 20000 in
example : lookupS (bizbuysellFields "Ref ID: Inquirers Information AB-12 Contact Zip: 90210".data) "Ref ID" = some "AB-12" := by decide
set_option maxRecDepth 20000 in
example : lookupS (bizbuysellFields ("Contact" ++ "\n" ++ "Name : Multi Line Value" ++ "\n" ++ "wraps Contact Zip: 123").data) "Contact Name" = some ("Multi Line Value" ++ "\n" ++ "wraps") := by decide

example : stripExtSuffix "Fax: 123".data = "Fa".data := by decide
example : stripExtSuffix "555x".data = "555x".data := by decide
example : stripExtSuffix "555 ext 12 34".data = "555 ext 12 34".data := by decide
example : normalize_phone_us_e164 "+15551234567" = "+15551234567" := by decide
example : containsND "Not Disclosed" = true := by decide
example : containsND "phone not given" = false := by decide

end LeadParser
